import Mathlib

/-!
# fnserve — verification of the function-execution engine

Shallow embedding of the core of the fnserve repository:

* `runtime/go.go` — `GoRuntime.Execute`: the three-way select racing process
  completion, the deadline timer and `ctx.Done()`.
* `server/server.go` — `Server.Start`'s per-function handler: the buffered-channel
  semaphore used for admission control, the statistics recorder, invocation-context
  construction and runtime selection.
* `runtime/runtime.go` — the `Context` / `TracingInfo` data model and its JSON shape.
* `cmd/run.go` — the one-shot CLI's `hasExt` runtime selection.

Machine integers (`int`, `int64`, `time.Duration`) are modelled as `Int`
(no computation here approaches the 64-bit range); byte slices as `List Nat`;
Go maps as association lists in canonical (key-sorted) order, the order in which
`encoding/json` emits map keys.
-/

namespace FnServe

/-! ## runtime/go.go — `GoRuntime.Execute`

The function marshals the invocation context, starts `cmd.Run()` in a goroutine
feeding an unbuffered channel `done`, arms a `time.After(fnCtx.Deadline)` channel
only when `fnCtx.Deadline > 0` (otherwise the channel stays `nil` and a receive
on it never fires), and then selects on `done` / `timeout` / `ctx.Done()`.
-/

/-- The two errors Go's `context` package returns from `ctx.Err()` once
`ctx.Done()` is closed: `context.Canceled` after a cancel call,
`context.DeadlineExceeded` after the context's own deadline elapsed. -/
inductive CtxErr where
  | canceled
  | deadlineExceeded
deriving DecidableEq, Repr

/-- The failure values `GoRuntime.Execute` can produce (src/runtime/go.go):
the marshal failure, the `go error: %s` wrapper around the captured buffer,
the `function execution timed out after %v` error carrying the configured
deadline, and `ctx.Err()` forwarded verbatim from the canceled context. -/
inductive ExecErr where
  | marshalFailure
  | goError (output : List Nat)
  | timedOut (deadlineNs : Int)
  | fromCtx (e : CtxErr)
deriving DecidableEq, Repr

/-- Which of the three watched channels wins the select in
`GoRuntime.Execute`: process completion (with or without a run error),
the deadline timer, or `ctx.Done()` (with the value `ctx.Err()` then holds). -/
inductive ExecEvent where
  | done (runFailed : Bool)
  | timeout
  | ctxFired (e : CtxErr)
deriving DecidableEq, Repr

/-- Which events can fire, derived from the code and Go channel semantics:
the `timeout` channel is `nil` unless `fnCtx.Deadline > 0` (a receive on a nil
channel blocks forever), and `ctx.Err()` can be `context.DeadlineExceeded` only
when the caller's context itself carries a deadline (`ctxHasDeadline` — true on
the HTTP path, where the handler wraps the request context in
`context.WithTimeout`; false on the CLI path, which uses `context.WithCancel`). -/
def eventPossible (deadlineNs : Int) (ctxHasDeadline : Bool) : ExecEvent → Prop
  | .timeout => 0 < deadlineNs
  | .ctxFired .deadlineExceeded => ctxHasDeadline = true
  | _ => True

instance (d : Int) (ch : Bool) (e : ExecEvent) : Decidable (eventPossible d ch e) := by
  unfold eventPossible
  rcases e with _ | _ | e
  · exact inferInstance
  · exact inferInstance
  · rcases e with _ | _ <;> exact inferInstance

/-- The outcome of one run of `GoRuntime.Execute`: a byte result, a Go error,
or a Go runtime panic (nil-pointer dereference). -/
inductive ExecResult where
  | ok (bytes : List Nat)
  | fail (e : ExecErr)
  | panic
deriving DecidableEq, Repr

/-- The select statement of `GoRuntime.Execute` (src/runtime/go.go lines 52–67),
as a function of the winning event. `buffered` is the contents of the combined
stdout+stderr buffer when the branch runs; `processStarted` records whether
`cmd.Run` got far enough to set `cmd.Process` (it stays `nil` when `cmd.Start`
returns early, e.g. on a context already canceled at entry). The timeout and
ctx branches call `cmd.Process.Kill()` with no nil guard; `os.Process.Kill` on
a nil receiver dereferences the nil pointer and panics. On a started process
the kill is best-effort (`ErrProcessDone` on an already-exited child is
ignored). -/
def executeSelect (deadlineNs : Int) (buffered : List Nat)
    (processStarted : Bool) : ExecEvent → ExecResult
  | .done false => .ok buffered
  | .done true => .fail (.goError buffered)
  | .timeout => if processStarted then .fail (.timedOut deadlineNs) else .panic
  | .ctxFired e => if processStarted then .fail (.fromCtx e) else .panic

/-- Classification of failures by Go error identity: the timeout branch's
`fmt.Errorf` and `context.DeadlineExceeded` both report that a deadline
elapsed; `context.Canceled` reports cancellation; everything else is an
execution-side failure. -/
inductive ErrKind where
  | deadline
  | canceled
  | execution
deriving DecidableEq, Repr

/-- The kind of each `ExecErr` value. `ctx.Err() = context.DeadlineExceeded`
is a deadline-kind error even though it is returned from the `ctx.Done()`
branch of the select. -/
def ExecErr.kind : ExecErr → ErrKind
  | .timedOut _ => .deadline
  | .fromCtx .canceled => .canceled
  | .fromCtx .deadlineExceeded => .deadline
  | _ => .execution

/-- Whether the failure's message names the duration `d`: only the
`function execution timed out after %v` error interpolates the configured
deadline; the fixed strings of the `context` package
(`context canceled`, `context deadline exceeded`) name no duration. -/
def namesConfiguredDeadline : ExecErr → Int → Bool
  | .timedOut d1, d2 => d1 == d2
  | _, _ => false

/-! ## server/server.go — admission semaphore

`s.semaphore = make(chan struct{}, MaxConcurrentRequests)`. The handler does a
nonblocking send (`select` with `default`) to acquire and a deferred receive to
release. We model the channel by its buffer occupancy: a nonblocking send
succeeds exactly when the buffer is not full, a receive completes exactly when
it is nonempty. -/

/-- One step of the buffered-channel semaphore of capacity `cap`. -/
inductive SemStep (cap : Nat) : Int → Int → Prop where
  | acquire {n : Int} : n < (cap : Int) → SemStep cap n (n + 1)
  | release {n : Int} : 0 < n → SemStep cap n (n - 1)

/-- Occupancies reachable from the freshly made (empty) channel. -/
inductive SemReachable (cap : Nat) : Int → Prop where
  | init : SemReachable cap 0
  | step {m n : Int} : SemReachable cap m → SemStep cap m n → SemReachable cap n

/-- The semaphore operations a handler run performs, in order. -/
inductive SemOp where
  | acquire
  | release
deriving DecidableEq, Repr

/-! ## server/server.go — statistics recorder -/

/-- The `Stats` struct (src/server/server.go lines 34–41), minus the mutex:
all accesses in the source occur under `stats.Lock()`. Counters are Go `int`
and `int64`, modelled as `Int`. -/
structure Stats where
  activeRequests : Int
  totalRequests : Int
  successRequests : Int
  failedRequests : Int
  totalExecutionMs : Int
deriving DecidableEq, Repr

/-- `Server.recordSuccess`: decrement active, increment succeeded, add the
elapsed milliseconds to the running total. -/
def recordSuccess (s : Stats) (durationMs : Int) : Stats :=
  { s with
    activeRequests := s.activeRequests - 1
    successRequests := s.successRequests + 1
    totalExecutionMs := s.totalExecutionMs + durationMs }

/-- `Server.recordFailure`: decrement active, increment failed, add the
elapsed milliseconds to the running total. -/
def recordFailure (s : Stats) (durationMs : Int) : Stats :=
  { s with
    activeRequests := s.activeRequests - 1
    failedRequests := s.failedRequests + 1
    totalExecutionMs := s.totalExecutionMs + durationMs }

/-- The stats increment at admission (src/server/server.go lines 103–106):
`ActiveRequests++; TotalRequests++`. -/
def recordStart (s : Stats) : Stats :=
  { s with
    activeRequests := s.activeRequests + 1
    totalRequests := s.totalRequests + 1 }

/-- `Server.calcAvgExecutionTime` (src/server/server.go lines 239–245): `0`
when no request has completed, otherwise `TotalExecutionMs` divided by the
number of completed requests. Go's `/` on `int64` truncates toward zero,
which is `Int.tdiv`. -/
def calcAvgExecutionTime (s : Stats) : Int :=
  let total := s.successRequests + s.failedRequests
  if total = 0 then 0 else Int.tdiv s.totalExecutionMs total

/-! ## server/server.go — invocation-context construction and the handler -/

/-- `runtime.TracingInfo` (src/runtime/runtime.go). -/
structure TracingInfo where
  traceId : String
  spanId : String
  parentId : String
deriving DecidableEq, Repr

/-- `runtime.Context` (src/runtime/runtime.go). `Timestamp time.Time` is
modelled by its RFC3339 rendering (a string, opaque here); `Deadline
time.Duration` is an `int64` count of nanoseconds. Go maps are modelled as
association lists in canonical (key-sorted) order. -/
structure FnContext where
  requestId : String
  timestamp : String
  deadlineNs : Int
  parameters : List (String × String)
  env : List (String × String)
  tracing : TracingInfo
deriving DecidableEq, Repr

/-- An inbound HTTP request as the handler consumes it: headers
(`r.Header.Get`, empty string when absent), the parsed query map
(`r.URL.Query()`, one entry per key), and the result of `io.ReadAll(r.Body)`
(`none` models a read error). -/
structure HttpRequest where
  headers : List (String × String)
  query : List (String × List String)
  bodyResult : Option (List Nat)

/-- `r.Header.Get name`: the value, or the empty string when absent. -/
def headerGet (req : HttpRequest) (k : String) : String :=
  match req.headers.lookup k with
  | some v => v
  | none => ""

/-- The three `uuid.NewString()` calls the handler makes, supplied as inputs
(the generator is external randomness). -/
structure FreshIds where
  reqId : String
  genTrace : String
  genSpan : String

/-- The parameter extraction loop (src/server/server.go lines 120–125): for
each query key with a nonempty value list, take the first value. -/
def firstPerKey (q : List (String × List String)) : List (String × String) :=
  q.filterMap fun kv => kv.2.head?.map fun v => (kv.1, v)

/-- The fixed allow-list of inbound headers copied into the context
environment (src/server/server.go line 129). -/
def allowListHeaders : List String :=
  ["X-API-Key", "Authorization", "X-Forwarded-For"]

/-- The environment extraction loop (src/server/server.go lines 128–133):
each allow-listed header present with a nonempty value. -/
def envFromHeaders (req : HttpRequest) : List (String × String) :=
  allowListHeaders.filterMap fun h =>
    let v := headerGet req h
    if v = "" then none else some (h, v)

/-- Invocation-context construction (src/server/server.go lines 95–146):
fresh request id; trace id from the `X-Trace-ID` header when nonempty, else
freshly generated; fresh span id; parent id from `X-Parent-Span` (possibly
empty); parameters from the query string; environment from the allow-listed
headers; deadline = the server's `RequestTimeout`. -/
def buildFnCtx (requestTimeoutNs : Int) (now : String) (fresh : FreshIds)
    (req : HttpRequest) : FnContext :=
  let hdrTrace := headerGet req "X-Trace-ID"
  { requestId := fresh.reqId
    timestamp := now
    deadlineNs := requestTimeoutNs
    parameters := firstPerKey req.query
    env := envFromHeaders req
    tracing :=
      { traceId := if hdrTrace = "" then fresh.genTrace else hdrTrace
        spanId := fresh.genSpan
        parentId := headerGet req "X-Parent-Span" } }

/-! ## Runtime selection — server (`strings.HasSuffix`) vs CLI (`hasExt`) -/

/-- The two execution-strategy variants (`runtime.PythonRuntime`,
`runtime.GoRuntime`). -/
inductive RuntimeKind where
  | python
  | go
deriving DecidableEq, Repr

/-- Artifact paths are byte strings; `.py` comparisons in the source are
byte-wise, so `List Char` over ASCII is faithful. -/
def pyExt : List Char := ['.', 'p', 'y']

/-- Go's `strings.HasSuffix s suffix`:
`len(s) >= len(suffix) && s[len(s)-len(suffix):] == suffix`. -/
def goHasSuffix (s suffix : List Char) : Bool :=
  suffix.isSuffixOf s

/-- `hasExt` from the CLI run command (src/unnamed/part_002):
`len(path) > len(ext) && path[len(path)-len(ext):] == ext`. Note the strict
inequality, absent from `strings.HasSuffix`. -/
def hasExt (path ext : List Char) : Bool :=
  decide (ext.length < path.length) && (path.drop (path.length - ext.length) == ext)

/-- Runtime selection in `Server.Start` (src/server/server.go lines 148–154). -/
def serverRuntime (path : List Char) : RuntimeKind :=
  if goHasSuffix path pyExt then .python else .go

/-- Runtime selection in the one-shot CLI (src/unnamed/part_002 lines 72–91). -/
def cliRuntime (path : List Char) : RuntimeKind :=
  if hasExt path pyExt then .python else .go

/-! ## server/server.go — the per-function request handler -/

/-- The body of an HTTP response: one of the handler's literal JSON error
payloads, the error payload wrapping `err.Error()` from the 500 branch
(`fmt.Fprintf(w, ..., err.Error())`), or the raw bytes returned by the
execution. -/
inductive RespBody where
  | errJson (msg : String)
  | errOf (e : ExecErr)
  | raw (bytes : List Nat)
deriving DecidableEq, Repr

/-- Status, headers and body of the handler's HTTP response. -/
structure HttpResponse where
  status : Nat
  headers : List (String × String)
  body : RespBody
deriving DecidableEq, Repr

/-- Everything one handler run produces: the semaphore occupancy after the
handler (and its deferred release) returned, the ordered list of semaphore
operations it performed, the statistics afterwards, the response, whether
`rt.Execute` was invoked, and which runtime was selected if so. -/
structure HandlerResult where
  semAfter : Int
  semOps : List SemOp
  statsAfter : Stats
  response : HttpResponse
  executed : Bool
  runtimeUsed : Option RuntimeKind
deriving Repr

/-- The per-function handler registered by `Server.Start`
(src/server/server.go lines 81–175), as a function of its external inputs:
the semaphore occupancy `sem` at arrival, the statistics `stats`, the request,
the fresh uuids, the elapsed milliseconds `elapsedMs` measured at recording
time, and the outcome of `rt.Execute` (an oracle — the child process is
external). Control flow, in source order:

1. nonblocking semaphore send; on failure respond 429 and return without
   touching stats (the deferred release runs only after a successful send);
2. `ActiveRequests++; TotalRequests++`;
3. read the body; on failure respond 400, `recordFailure`, return;
4. build the invocation context, select the runtime by `strings.HasSuffix`;
5. `rt.Execute`; on error respond 500 with the error text, `recordFailure`;
6. on success set `X-Request-ID`/`X-Trace-ID` and write the raw result,
   `recordSuccess`.

Every exit path after a successful send ends with the deferred receive, so
`semAfter = sem` and `semOps = [acquire, release]` on those paths. -/
def handleRequest (maxConcurrent : Nat) (requestTimeoutNs : Int)
    (functionPath : List Char) (sem : Int) (stats : Stats) (req : HttpRequest)
    (fresh : FreshIds) (now : String) (elapsedMs : Int)
    (outcome : Except ExecErr (List Nat)) : HandlerResult :=
  if sem < (maxConcurrent : Int) then
    let stats1 := recordStart stats
    match req.bodyResult with
    | none =>
      { semAfter := sem
        semOps := [.acquire, .release]
        statsAfter := recordFailure stats1 elapsedMs
        response :=
          { status := 400, headers := [], body := .errJson "invalid request body" }
        executed := false
        runtimeUsed := none }
    | some _ =>
      let fnCtx := buildFnCtx requestTimeoutNs now fresh req
      let rt := serverRuntime functionPath
      match outcome with
      | .error e =>
        { semAfter := sem
          semOps := [.acquire, .release]
          statsAfter := recordFailure stats1 elapsedMs
          response :=
            { status := 500
              headers := [("Content-Type", "application/json")]
              body := .errOf e }
          executed := true
          runtimeUsed := some rt }
      | .ok result =>
        { semAfter := sem
          semOps := [.acquire, .release]
          statsAfter := recordSuccess stats1 elapsedMs
          response :=
            { status := 200
              headers :=
                [("Content-Type", "application/json"),
                 ("X-Request-ID", fresh.reqId),
                 ("X-Trace-ID", fnCtx.tracing.traceId)]
              body := .raw result }
          executed := true
          runtimeUsed := some rt }
  else
    { semAfter := sem
      semOps := []
      statsAfter := stats
      response :=
        { status := 429
          headers := [("Content-Type", "application/json")]
          body := .errJson "too many requests" }
      executed := false
      runtimeUsed := none }

/-! ## runtime/runtime.go — JSON shape of the invocation context

`json.Marshal` of `runtime.Context` emits the struct fields in declaration
order under their tag names (`request_id`, `timestamp`, `deadline`,
`parameters`, `env`, `tracing`); `time.Duration` is an `int64` nanosecond
count and marshals as that integer; `map[string]string` marshals as an object
whose keys appear in sorted order — the order of the canonical association
list representing the map. `json.Unmarshal` into the struct takes fields by
tag name, leaves absent fields at their zero value, and rejects mismatched
types. -/

/-- The fragment of JSON the context document uses. -/
inductive Json where
  | str (s : String)
  | num (n : Int)
  | obj (fields : List (String × Json))

/-- Field lookup in a JSON object, first match wins. -/
def jsonLookup (k : String) : List (String × Json) → Option Json
  | [] => none
  | kv :: rest => if kv.1 = k then some kv.2 else jsonLookup k rest

/-- A `map[string]string` as a JSON object, entries in canonical order. -/
def mapToJson (m : List (String × String)) : Json :=
  .obj (m.map fun kv => (kv.1, .str kv.2))

/-- Decoding the entries of a JSON object into a `map[string]string`;
fails on a non-string value, as `json.Unmarshal` does. -/
def entriesFromJson : List (String × Json) → Option (List (String × String))
  | [] => some []
  | (k, .str v) :: rest => (entriesFromJson rest).map fun r => (k, v) :: r
  | _ :: _ => none

/-- A string-typed field: the zero value `""` when absent, failure on a
non-string value. -/
def strField (fields : List (String × Json)) (k : String) : Option String :=
  match jsonLookup k fields with
  | none => some ""
  | some (.str s) => some s
  | some _ => none

/-- An integer-typed field (`time.Duration`): the zero value `0` when absent,
failure on a non-number value. -/
def numField (fields : List (String × Json)) (k : String) : Option Int :=
  match jsonLookup k fields with
  | none => some 0
  | some (.num n) => some n
  | some _ => none

/-- A map-typed field: the zero (nil) map when absent, failure on a
non-object value. -/
def mapField (fields : List (String × Json)) (k : String) :
    Option (List (String × String)) :=
  match jsonLookup k fields with
  | none => some []
  | some (.obj entries) => entriesFromJson entries
  | some _ => none

/-- `json.Marshal` of `runtime.TracingInfo`. -/
def TracingInfo.toJson (t : TracingInfo) : Json :=
  .obj [("trace_id", .str t.traceId),
        ("span_id", .str t.spanId),
        ("parent_id", .str t.parentId)]

/-- `json.Unmarshal` into `runtime.TracingInfo`. -/
def TracingInfo.fromJson : Json → Option TracingInfo
  | .obj fields => do
    let t ← strField fields "trace_id"
    let s ← strField fields "span_id"
    let p ← strField fields "parent_id"
    some { traceId := t, spanId := s, parentId := p }
  | _ => none

/-- The nested `tracing` field: the zero `TracingInfo` when absent. -/
def tracingField (fields : List (String × Json)) (k : String) :
    Option TracingInfo :=
  match jsonLookup k fields with
  | none => some { traceId := "", spanId := "", parentId := "" }
  | some j => TracingInfo.fromJson j

/-- `json.Marshal` of `runtime.Context` (src/runtime/runtime.go lines 23–30). -/
def FnContext.toJson (c : FnContext) : Json :=
  .obj [("request_id", .str c.requestId),
        ("timestamp", .str c.timestamp),
        ("deadline", .num c.deadlineNs),
        ("parameters", mapToJson c.parameters),
        ("env", mapToJson c.env),
        ("tracing", c.tracing.toJson)]

/-- `json.Unmarshal` into `runtime.Context`. -/
def FnContext.fromJson : Json → Option FnContext
  | .obj fields => do
    let rid ← strField fields "request_id"
    let ts ← strField fields "timestamp"
    let dl ← numField fields "deadline"
    let ps ← mapField fields "parameters"
    let ev ← mapField fields "env"
    let tr ← tracingField fields "tracing"
    some { requestId := rid, timestamp := ts, deadlineNs := dl,
           parameters := ps, env := ev, tracing := tr }
  | _ => none

/-- Top-level field access in a JSON document. -/
def Json.field : Json → String → Option Json
  | .obj fields, k => jsonLookup k fields
  | _, _ => none

/-! ## Helper lemmas -/

/-- `hasExt` unfolded to its two Boolean conjuncts. -/
theorem hasExt_true_iff (path ext : List Char) :
    hasExt path ext = true ↔
      ext.length < path.length ∧ path.drop (path.length - ext.length) = ext := by
  simp [hasExt]

/-- `strings.HasSuffix` decides the list-suffix relation. -/
theorem goHasSuffix_iff (s suffix : List Char) :
    goHasSuffix s suffix = true ↔ suffix <:+ s :=
  List.isSuffixOf_iff_suffix

/-- Away from the single path equal to the extension itself, the CLI's
`hasExt` agrees with `strings.HasSuffix`. -/
theorem hasExt_eq_goHasSuffix (path : List Char) (hne : path ≠ pyExt) :
    hasExt path pyExt = goHasSuffix path pyExt := by
  by_cases hs : goHasSuffix path pyExt = true
  · rw [hs]
    obtain ⟨t, ht⟩ := (goHasSuffix_iff path pyExt).mp hs
    cases t with
    | nil => exact absurd ht.symm (by simpa using hne)
    | cons a t' =>
      rw [hasExt_true_iff]
      constructor
      · rw [← ht, List.length_append]
        simp [pyExt]
      · rw [← ht, List.length_append, Nat.add_sub_cancel]
        exact List.drop_left (a :: t') pyExt
  · rw [Bool.not_eq_true] at hs
    rw [hs]
    rw [Bool.eq_false_iff]
    intro hx
    obtain ⟨-, hdrop⟩ := (hasExt_true_iff path pyExt).mp hx
    have : pyExt <:+ path := hdrop ▸ List.drop_suffix _ path
    rw [← goHasSuffix_iff] at this
    rw [hs] at this
    cases this

/-- Decoding undoes encoding for map entries. -/
theorem entriesFromJson_mapToJson (m : List (String × String)) :
    entriesFromJson (m.map fun kv => (kv.1, Json.str kv.2)) = some m := by
  induction m with
  | nil => rfl
  | cons kv rest ih =>
    obtain ⟨k, v⟩ := kv
    simp [entriesFromJson, ih]

/-! ## Claim theorems -/

/-- C5, counterexample: on the path `".py"` the HTTP dispatcher selects the
interpreted-script variant (`strings.HasSuffix(".py", ".py")` is true) while
the one-shot CLI selects the compiled-binary variant (`hasExt` demands
`len(path) > len(ext)`), so the two paths do not agree on every path and the
CLI does not select the interpreter for every path ending in `.py`. -/
theorem runtime_selection_disagreement :
    serverRuntime pyExt = RuntimeKind.python ∧ cliRuntime pyExt = RuntimeKind.go := by
  decide

/-- C5, amended: strategy selection is a total function of the artifact path
with no unrecognized-extension failure; the HTTP dispatcher selects the
interpreted-script variant exactly for paths with suffix `.py` and the
compiled-binary variant otherwise; and the CLI agrees with it on every path
except the single path equal to `".py"` itself, where the CLI's strict
length requirement falls through to the compiled-binary variant. -/
theorem runtime_selection_policy (path : List Char) :
    (goHasSuffix path pyExt = true → serverRuntime path = RuntimeKind.python) ∧
    (goHasSuffix path pyExt = false → serverRuntime path = RuntimeKind.go) ∧
    (path ≠ pyExt → serverRuntime path = cliRuntime path) := by
  refine ⟨fun h => ?_, fun h => ?_, fun hne => ?_⟩
  · simp [serverRuntime, h]
  · simp [serverRuntime, h]
  · rw [serverRuntime, cliRuntime, hasExt_eq_goHasSuffix path hne]

/-- C5, witness for the amended theorem at the path `"f.py"`. -/
theorem runtime_selection_policy_witness :
    (['f', '.', 'p', 'y'] ≠ pyExt) ∧
    serverRuntime ['f', '.', 'p', 'y'] = cliRuntime ['f', '.', 'p', 'y'] :=
  ⟨by decide, (runtime_selection_policy ['f', '.', 'p', 'y']).2.2 (by decide)⟩

/-- C2, counterexample: on the HTTP path the request context is built with
`context.WithTimeout(r.Context(), RequestTimeout)` — the same duration as
`fnCtx.Deadline` — so when the deadline elapses before the child completes,
`ctx.Done()` is ready (with `ctx.Err() = context.DeadlineExceeded`) and the
select may take the cancellation branch: the execution then fails with a
deadline-kind error whose message (`context deadline exceeded`) does not name
the configured deadline, and the cancellation-watch branch has produced a
deadline-kind failure. With a 30s deadline (30000000000 ns): the event is
possible, the result is `ctx.Err()` forwarded, its kind is deadline, and its
message does not name the configured duration. -/
theorem deadline_error_kind_counterexample :
    eventPossible 30000000000 true (ExecEvent.ctxFired CtxErr.deadlineExceeded) ∧
    executeSelect 30000000000 [] true (ExecEvent.ctxFired CtxErr.deadlineExceeded) =
      ExecResult.fail (ExecErr.fromCtx CtxErr.deadlineExceeded) ∧
    ExecErr.kind (ExecErr.fromCtx CtxErr.deadlineExceeded) = ErrKind.deadline ∧
    namesConfiguredDeadline (ExecErr.fromCtx CtxErr.deadlineExceeded) 30000000000 = false := by
  refine ⟨rfl, rfl, rfl, rfl⟩

/-- C2, amended: when the supervisor's own deadline timer wins the select it
fails with an error naming the configured deadline, distinct from the
canceled kind; when `ctx.Done()` fires with `context.Canceled` the failure is
canceled-kind; and provided the caller's context carries no deadline of its
own (as on the CLI path), the `ctx.Done()` branch only ever produces the
canceled kind — but when the caller's context itself has a deadline (the HTTP
path), `ctx.Done()` can deliver `context.DeadlineExceeded`, so the two event
sources are not separated in general. -/
theorem deadline_and_cancel_reporting (d : Int) (b : List Nat) (hd : 0 < d) :
    eventPossible d true ExecEvent.timeout ∧
    executeSelect d b true ExecEvent.timeout = ExecResult.fail (ExecErr.timedOut d) ∧
    namesConfiguredDeadline (ExecErr.timedOut d) d = true ∧
    ExecErr.kind (ExecErr.timedOut d) = ErrKind.deadline ∧
    executeSelect d b true (ExecEvent.ctxFired CtxErr.canceled) =
      ExecResult.fail (ExecErr.fromCtx CtxErr.canceled) ∧
    ExecErr.kind (ExecErr.fromCtx CtxErr.canceled) = ErrKind.canceled ∧
    (∀ ce, eventPossible d false (ExecEvent.ctxFired ce) →
      ExecErr.kind (ExecErr.fromCtx ce) = ErrKind.canceled) := by
  refine ⟨hd, rfl, ?_, rfl, rfl, rfl, fun ce hce => ?_⟩
  · simp [namesConfiguredDeadline]
  · cases ce with
    | canceled => rfl
    | deadlineExceeded => simp [eventPossible] at hce

/-- C2, witness at a 30s deadline with a nonempty buffer. -/
theorem deadline_and_cancel_reporting_witness :
    (0 : Int) < 30000000000 ∧
    executeSelect 30000000000 [104] true ExecEvent.timeout =
      ExecResult.fail (ExecErr.timedOut 30000000000) :=
  ⟨by decide, (deadline_and_cancel_reporting 30000000000 [104] (by decide)).2.1⟩

/-- C3: when the deadline timer wins the select, `Execute` returns
`nil, fmt.Errorf(...)` — the captured buffer is discarded: the result is the
timeout failure whatever the buffer holds, it does not depend on the buffer,
and it is never a byte result. -/
theorem timeout_discards_partial_output (d : Int) (b b2 : List Nat) (hd : 0 < d) :
    eventPossible d false ExecEvent.timeout ∧
    executeSelect d b true ExecEvent.timeout = ExecResult.fail (ExecErr.timedOut d) ∧
    executeSelect d b true ExecEvent.timeout = executeSelect d b2 true ExecEvent.timeout ∧
    ∀ bytes, executeSelect d b true ExecEvent.timeout ≠ ExecResult.ok bytes := by
  refine ⟨hd, rfl, rfl, fun bytes h => ?_⟩
  simp [executeSelect] at h

/-- C3, witness: a 1s deadline with distinct buffered outputs. -/
theorem timeout_discards_partial_output_witness :
    (0 : Int) < 1000000000 ∧
    executeSelect 1000000000 [104, 105] true ExecEvent.timeout =
      executeSelect 1000000000 [] true ExecEvent.timeout :=
  ⟨by decide, (timeout_discards_partial_output 1000000000 [104, 105] [] (by decide)).2.2.1⟩

/-- C9: with `fnCtx.Deadline = 0` the timeout channel stays `nil`, so the
deadline branch of the select can never fire: the timeout event is not
possible, no possible event yields the supervisor's deadline-exceeded
failure, and the only events that can end the execution are process
completion and `ctx.Done()`. -/
theorem zero_deadline_unreachable_timeout (b : List Nat) (started ch : Bool)
    (e : ExecEvent) (hp : eventPossible 0 ch e) :
    ¬ eventPossible 0 ch ExecEvent.timeout ∧
    (∀ d, executeSelect 0 b started e ≠ ExecResult.fail (ExecErr.timedOut d)) ∧
    ((∃ rf, e = ExecEvent.done rf) ∨ ∃ ce, e = ExecEvent.ctxFired ce) := by
  refine ⟨by simp [eventPossible], fun d h => ?_, ?_⟩
  · cases e with
    | done rf => cases rf <;> simp [executeSelect] at h
    | timeout => simp [eventPossible] at hp
    | ctxFired ce =>
      cases started <;> simp [executeSelect] at h
  · cases e with
    | done rf => exact Or.inl ⟨rf, rfl⟩
    | timeout => simp [eventPossible] at hp
    | ctxFired ce => exact Or.inr ⟨ce, rfl⟩

/-- C9, witness: process completion under a zero deadline. -/
theorem zero_deadline_unreachable_timeout_witness :
    eventPossible 0 false (ExecEvent.done false) ∧
    ∀ d, executeSelect 0 [104] true (ExecEvent.done false) ≠
      ExecResult.fail (ExecErr.timedOut d) :=
  ⟨trivial, (zero_deadline_unreachable_timeout [104] true false (ExecEvent.done false)
    trivial).2.1⟩

/-- C10: `cmd.Process.Kill()` is called with no nil guard in the timeout and
cancellation branches; when the winning event fires before `cmd.Start` set
`cmd.Process` (a context already canceled at entry makes `Start` return
early), the call dereferences a nil `*os.Process` and the goroutine panics
instead of returning a `(bytes, error)` pair. -/
theorem kill_nil_process_panics :
    eventPossible 30000000000 false (ExecEvent.ctxFired CtxErr.canceled) ∧
    executeSelect 30000000000 [] false (ExecEvent.ctxFired CtxErr.canceled) =
      ExecResult.panic :=
  ⟨trivial, rfl⟩

/-- C1: every reachable occupancy of the admission semaphore satisfies
`0 ≤ occupied ≤ MaxConcurrentRequests`, and on every exit path of the handler
a granted acquire is paired with exactly one release (the deferred receive)
while a denied acquire performs no semaphore operation, so the occupancy
after the handler equals the occupancy at arrival in both cases — no slot is
leaked and none is double-released. -/
theorem admission_slots_bounded_and_paired (cap : Nat) (n : Int)
    (h : SemReachable cap n) :
    (0 ≤ n ∧ n ≤ (cap : Int)) ∧
    ∀ (maxC : Nat) (rtNs : Int) (path : List Char) (sem : Int) (stats : Stats)
      (req : HttpRequest) (fresh : FreshIds) (now : String) (el : Int)
      (outcome : Except ExecErr (List Nat)),
      ((handleRequest maxC rtNs path sem stats req fresh now el outcome).semOps =
        if sem < (maxC : Int) then [SemOp.acquire, SemOp.release] else []) ∧
      (handleRequest maxC rtNs path sem stats req fresh now el outcome).semAfter = sem := by
  constructor
  · induction h with
    | init => omega
    | step _ hs ih =>
      cases hs with
      | acquire hlt => omega
      | release hpos => omega
  · intro maxC rtNs path sem stats req fresh now el outcome
    rw [handleRequest]
    split
    · rename_i hlt
      rcases req.bodyResult with _ | b
      · simp [hlt]
      · rcases outcome with e | r <;> simp [hlt]
    · rename_i hge
      simp [hge]

/-- C1, witness: capacity 2, the empty initial occupancy, and one granted
handler run ending in success. -/
theorem admission_slots_bounded_and_paired_witness :
    ((0 : Int) ≤ 0 ∧ (0 : Int) ≤ (2 : Nat)) ∧
    ((handleRequest 2 30000000000 ['f'] 0 ⟨0, 0, 0, 0, 0⟩ ⟨[], [], some []⟩
        ⟨"r", "t", "s"⟩ "ts" 5 (Except.ok [])).semOps =
      if (0 : Int) < (2 : Nat) then [SemOp.acquire, SemOp.release] else []) ∧
    (handleRequest 2 30000000000 ['f'] 0 ⟨0, 0, 0, 0, 0⟩ ⟨[], [], some []⟩
        ⟨"r", "t", "s"⟩ "ts" 5 (Except.ok [])).semAfter = 0 :=
  ⟨(admission_slots_bounded_and_paired 2 0 SemReachable.init).1,
   (admission_slots_bounded_and_paired 2 0 SemReachable.init).2
     2 30000000000 ['f'] 0 ⟨0, 0, 0, 0, 0⟩ ⟨[], [], some []⟩ ⟨"r", "t", "s"⟩ "ts" 5
     (Except.ok [])⟩

/-- C4: a request arriving when the semaphore is full is answered 429, no
execution strategy is invoked, no runtime is selected, every statistics field
is exactly what it was, and the semaphore is untouched. -/
theorem rejected_request_frame (maxC : Nat) (rtNs : Int) (path : List Char)
    (sem : Int) (stats : Stats) (req : HttpRequest) (fresh : FreshIds)
    (now : String) (el : Int) (outcome : Except ExecErr (List Nat))
    (hfull : (maxC : Int) ≤ sem) :
    (handleRequest maxC rtNs path sem stats req fresh now el outcome).response.status = 429 ∧
    (handleRequest maxC rtNs path sem stats req fresh now el outcome).statsAfter = stats ∧
    (handleRequest maxC rtNs path sem stats req fresh now el outcome).executed = false ∧
    (handleRequest maxC rtNs path sem stats req fresh now el outcome).runtimeUsed = none ∧
    (handleRequest maxC rtNs path sem stats req fresh now el outcome).semAfter = sem := by
  rw [handleRequest]
  have hnot : ¬ sem < (maxC : Int) := not_lt.mpr hfull
  simp [hnot]

/-- C4, witness: capacity 1 with the single slot held. -/
theorem rejected_request_frame_witness :
    ((1 : Nat) : Int) ≤ 1 ∧
    (handleRequest 1 30000000000 ['f'] 1 ⟨1, 7, 4, 2, 90⟩ ⟨[], [], some []⟩
        ⟨"r", "t", "s"⟩ "ts" 5 (Except.ok [])).statsAfter = ⟨1, 7, 4, 2, 90⟩ :=
  ⟨by decide,
   (rejected_request_frame 1 30000000000 ['f'] 1 ⟨1, 7, 4, 2, 90⟩ ⟨[], [], some []⟩
     ⟨"r", "t", "s"⟩ "ts" 5 (Except.ok []) (by decide)).2.1⟩

/-- C6: the derived average is `TotalExecutionMs` divided by
`SuccessRequests + FailedRequests` with Go's truncating integer division, and
is `0` when that denominator is `0` — the division is guarded and never runs
with a zero divisor. -/
theorem stats_average_guarded (s : Stats) :
    (s.successRequests + s.failedRequests = 0 → calcAvgExecutionTime s = 0) ∧
    (s.successRequests + s.failedRequests ≠ 0 →
      calcAvgExecutionTime s =
        Int.tdiv s.totalExecutionMs (s.successRequests + s.failedRequests)) := by
  constructor
  · intro h
    simp [calcAvgExecutionTime, h]
  · intro h
    simp [calcAvgExecutionTime, h]

/-- C6, witness: both sides of the guard, on concrete counter values. -/
theorem stats_average_guarded_witness :
    ((0 : Int) + 0 = 0 ∧ calcAvgExecutionTime ⟨0, 0, 0, 0, 37⟩ = 0) ∧
    ((3 : Int) + 1 ≠ 0 ∧ calcAvgExecutionTime ⟨0, 4, 3, 1, 90⟩ = Int.tdiv 90 (3 + 1)) :=
  ⟨⟨by decide, (stats_average_guarded ⟨0, 0, 0, 0, 37⟩).1 (by decide)⟩,
   ⟨by decide, (stats_average_guarded ⟨0, 4, 3, 1, 90⟩).2 (by decide)⟩⟩

/-- C7: for every inbound request the invocation context carries the fresh
request id and fresh span id, inherits the trace id from a nonempty
`X-Trace-ID` header and otherwise uses the freshly generated (nonempty)
value, takes the parent id from `X-Parent-Span`, and takes the first value
per query key; a successful response echoes the context's trace id in
`X-Trace-ID` and the request id in `X-Request-ID`. -/
theorem context_construction_and_echo (maxC : Nat) (rtNs : Int) (path : List Char)
    (sem : Int) (stats : Stats) (req : HttpRequest) (fresh : FreshIds)
    (now : String) (el : Int) (result : List Nat) (body : List Nat)
    (hsem : sem < (maxC : Int)) (hbody : req.bodyResult = some body)
    (hgen : fresh.genTrace ≠ "") :
    (buildFnCtx rtNs now fresh req).requestId = fresh.reqId ∧
    (buildFnCtx rtNs now fresh req).tracing.spanId = fresh.genSpan ∧
    (headerGet req "X-Trace-ID" ≠ "" →
      (buildFnCtx rtNs now fresh req).tracing.traceId = headerGet req "X-Trace-ID") ∧
    (headerGet req "X-Trace-ID" = "" →
      (buildFnCtx rtNs now fresh req).tracing.traceId = fresh.genTrace) ∧
    (buildFnCtx rtNs now fresh req).tracing.traceId ≠ "" ∧
    (buildFnCtx rtNs now fresh req).tracing.parentId = headerGet req "X-Parent-Span" ∧
    (buildFnCtx rtNs now fresh req).parameters = firstPerKey req.query ∧
    (handleRequest maxC rtNs path sem stats req fresh now el
        (Except.ok result)).response.headers.lookup "X-Trace-ID" =
      some (buildFnCtx rtNs now fresh req).tracing.traceId ∧
    (handleRequest maxC rtNs path sem stats req fresh now el
        (Except.ok result)).response.headers.lookup "X-Request-ID" =
      some fresh.reqId := by
  refine ⟨rfl, rfl, fun hne => ?_, fun he => ?_, ?_, rfl, rfl, ?_, ?_⟩
  · simp [buildFnCtx, hne]
  · simp [buildFnCtx, he]
  · by_cases he : headerGet req "X-Trace-ID" = ""
    · simpa [buildFnCtx, he] using hgen
    · simp [buildFnCtx, he]
  · rw [handleRequest]
    simp [hsem, hbody, List.lookup]
  · rw [handleRequest]
    simp [hsem, hbody, List.lookup]

/-- C7, witness: one granted request carrying an inbound trace header. -/
theorem context_construction_and_echo_witness :
    ((0 : Int) < (4 : Nat) ∧
      (⟨[("X-Trace-ID", "t1")], [("k", ["v1", "v2"])], some []⟩ :
        HttpRequest).bodyResult = some [] ∧
      "g" ≠ "") ∧
    (buildFnCtx 30000000000 "ts" ⟨"r", "g", "s"⟩
        ⟨[("X-Trace-ID", "t1")], [("k", ["v1", "v2"])], some []⟩).parameters =
      firstPerKey [("k", ["v1", "v2"])] :=
  ⟨⟨by decide, rfl, by decide⟩,
   (context_construction_and_echo 4 30000000000 ['f'] 0 ⟨0, 0, 0, 0, 0⟩
     ⟨[("X-Trace-ID", "t1")], [("k", ["v1", "v2"])], some []⟩ ⟨"r", "g", "s"⟩ "ts" 5
     [] [] (by decide) rfl (by decide)).2.2.2.2.2.2.1⟩

/-- C8: serializing an invocation context and deserializing the result
restores `request_id`, `deadline`, `parameters`, `env` and `tracing`
(and the timestamp rendering) field for field, with the deadline carried as
the nanosecond-count integer of `time.Duration`. The map hypotheses state the
canonical (key-sorted, as `encoding/json` emits map keys) representation of
the two Go maps. -/
theorem context_json_roundtrip (c : FnContext)
    (_hp : c.parameters.Pairwise (fun a b => a.1 < b.1))
    (_he : c.env.Pairwise (fun a b => a.1 < b.1)) :
    FnContext.fromJson c.toJson = some c ∧
    c.toJson.field "deadline" = some (Json.num c.deadlineNs) := by
  constructor
  · simp [FnContext.toJson, FnContext.fromJson, strField, numField, mapField,
      tracingField, jsonLookup, mapToJson, entriesFromJson_mapToJson,
      TracingInfo.toJson, TracingInfo.fromJson]
  · simp [FnContext.toJson, Json.field, jsonLookup]

/-- C8, witness: a concrete context with sorted two-entry maps. -/
theorem context_json_roundtrip_witness :
    ((([("a", "1"), ("b", "2")] : List (String × String)).Pairwise
        (fun a b => a.1 < b.1)) ∧
      (([("X-API-Key", "k")] : List (String × String)).Pairwise
        (fun a b => a.1 < b.1))) ∧
    FnContext.fromJson
        (FnContext.toJson ⟨"rid", "ts", 30000000000, [("a", "1"), ("b", "2")],
          [("X-API-Key", "k")], ⟨"t1", "s1", "p1"⟩⟩) =
      some ⟨"rid", "ts", 30000000000, [("a", "1"), ("b", "2")],
        [("X-API-Key", "k")], ⟨"t1", "s1", "p1"⟩⟩ :=
  ⟨⟨by simp; decide, by simp⟩,
   (context_json_roundtrip
     ⟨"rid", "ts", 30000000000, [("a", "1"), ("b", "2")], [("X-API-Key", "k")],
       ⟨"t1", "s1", "p1"⟩⟩ (by simp; decide) (by simp)).1⟩

end FnServe
